import Mathlib

set_option maxRecDepth 10000

namespace SpotifyPipeline

/-! # Shallow embedding of the `egil10/music` pipeline

JSON data model, Python-semantics helpers (truthiness, `int()` coercion,
ordered dictionaries), a backtracking regex engine for the `re` patterns
used by the scripts, and the pipeline stages that the verified claims are
about: `scripts/sanitize_data.py`, `scripts/merge_data.py`,
`scripts/privacy_filter.py` and `scripts/diagnostic_report.py`. -/

/-- JSON values as produced by `json.load`: objects are insertion-ordered
association lists with unique keys; numbers are modelled as integers (every
numeric field this repository handles is integral). -/
inductive JVal where
  | null
  | bool (b : Bool)
  | num (n : Int)
  | str (s : String)
  | arr (xs : List JVal)
  | obj (kvs : List (String × JVal))

mutual

/-- Structural equality of JSON values (Python `==` on parsed JSON, except
that Python additionally identifies `True` with `1`; no dictionary key in
the analyzed data mixes booleans and numbers). -/
def jvalBeq : JVal → JVal → Bool
  | .null, .null => true
  | .bool a, .bool b => a == b
  | .num a, .num b => a == b
  | .str a, .str b => a == b
  | .arr a, .arr b => jarrBeq a b
  | .obj a, .obj b => jobjBeq a b
  | _, _ => false

def jarrBeq : List JVal → List JVal → Bool
  | [], [] => true
  | x :: xs, y :: ys => jvalBeq x y && jarrBeq xs ys
  | _, _ => false

def jobjBeq : List (String × JVal) → List (String × JVal) → Bool
  | [], [] => true
  | (k, v) :: xs, (k', v') :: ys => k == k' && jvalBeq v v' && jobjBeq xs ys
  | _, _ => false

end

instance : BEq JVal := ⟨jvalBeq⟩

/-- Python truthiness of a JSON value: `None`, `False`, `0`, `""`, `[]`,
`{}` are falsy, everything else is truthy. -/
def truthy : JVal → Bool
  | .null => false
  | .bool b => b
  | .num n => n != 0
  | .str s => !s.isEmpty
  | .arr xs => !xs.isEmpty
  | .obj kvs => !kvs.isEmpty

/-- `d.get(k)` on a parsed JSON object (`some` iff `k in d`). -/
def getKey? (kvs : List (String × JVal)) (k : String) : Option JVal :=
  match kvs with
  | [] => none
  | (k', v) :: rest => if k' = k then some v else getKey? rest k

/-- `d.get(k, dflt)`. -/
def getKeyD (kvs : List (String × JVal)) (k : String) (dflt : JVal) : JVal :=
  (getKey? kvs k).getD dflt

/-- `d[k] = v` on a parsed JSON object: replace in place, append if absent. -/
def setKey (kvs : List (String × JVal)) (k : String) (v : JVal) :
    List (String × JVal) :=
  match kvs with
  | [] => [(k, v)]
  | (k', v') :: rest => if k' = k then (k, v) :: rest else (k', v') :: setKey rest k v

/-- Python `int(s)` for a string: optional surrounding whitespace, optional
sign, one or more ASCII digits; otherwise `ValueError` (`none`).  (Python's
digit-grouping underscores are not modelled; no input here uses them.) -/
def pyStrToInt (s : String) : Option Int :=
  let cs := (((s.data.dropWhile Char.isWhitespace).reverse.dropWhile
    Char.isWhitespace).reverse)
  let signAndDigits : Int × List Char :=
    match cs with
    | '-' :: rest => (-1, rest)
    | '+' :: rest => (1, rest)
    | _ => (1, cs)
  let ds := signAndDigits.2
  if !ds.isEmpty && ds.all Char.isDigit then
    some (signAndDigits.1 *
      (ds.foldl (fun a c => a * 10 + (c.toNat - '0'.toNat)) 0 : Nat))
  else none

/-- Python `int(v)` on a JSON value: ints unchanged, bools to 0/1, strings
parsed; other values raise (`none` models the caught
`ValueError`/`TypeError`). -/
def pyToInt : JVal → Option Int
  | .num n => some n
  | .bool b => some (if b then 1 else 0)
  | .str s => pyStrToInt s
  | _ => none

/-- `s.lower()` (ASCII, which covers all field names in the tables). -/
def lowerStr (s : String) : String := ⟨s.data.map Char.toLower⟩

/-- `needle in hay` on character lists. -/
def infixOf (needle hay : List Char) : Bool :=
  hay.tails.any (fun t => needle.isPrefixOf t)

/-- Python `needle.lower() in hay.lower()`. -/
def containsCI (hay needle : String) : Bool :=
  infixOf (lowerStr needle).data (lowerStr hay).data

/-! ## Regex engine

Just enough of Python's `re` for the seven patterns used by the scripts:
character classes, sequencing, alternation, greedy bounded repetition and
the `\b` word-boundary assertion, with Python's leftmost /greedy /
first-alternative match semantics. -/

/-- Regular expressions over characters. -/
inductive Re where
  | eps
  | cls (p : Char → Bool)
  | seq (a b : Re)
  | alt (a b : Re)
  | rep (lo : Nat) (hi : Option Nat) (r : Re)
  | bnd

/-- `\w` membership as `re` defines it on ASCII input. -/
def isWordChar (c : Char) : Bool := c.isAlphanum || c = '_'

def wordOpt : Option Char → Bool
  | some c => isWordChar c
  | none => false

/-- `\b` holds between the previous character and the next one. -/
def boundOk (prev next : Option Char) : Bool := wordOpt prev != wordOpt next

/-- Backtracking matcher.  `prev` is the character before the current
position (for `\b`), `k` the continuation receiving the rest of the input;
alternatives are tried left first and repetition is greedy, so the first
success is exactly the match Python's `re` finds.  `fuel` bounds recursion
depth and is chosen generously by the callers below. -/
def mtch (fuel : Nat) (re : Re) (prev : Option Char) (s : List Char)
    (k : Option Char → List Char → Option (List Char)) : Option (List Char) :=
  match fuel with
  | 0 => none
  | fuel + 1 =>
    match re with
    | .eps => k prev s
    | .bnd => if boundOk prev s.head? then k prev s else none
    | .cls p =>
      match s with
      | [] => none
      | c :: rest => if p c then k (some c) rest else none
    | .seq a b => mtch fuel a prev s (fun p' s' => mtch fuel b p' s' k)
    | .alt a b =>
      match mtch fuel a prev s k with
      | some r => some r
      | none => mtch fuel b prev s k
    | .rep lo hi r =>
      let canMore := match hi with | some h => h != 0 | none => true
      let more := if canMore then
          mtch fuel r prev s (fun p' s' =>
            mtch fuel (.rep (lo - 1) (hi.map (· - 1)) r) p' s' k)
        else none
      match more with
      | some res => some res
      | none => if lo = 0 then k prev s else none

/-- Match `re` at the current position; `some n` is the length of the match
Python's engine reports there. -/
def tryMatch (re : Re) (prev : Option Char) (s : List Char) : Option Nat :=
  match mtch (1000 + 200 * s.length) re prev s (fun _ rest => some rest) with
  | some rest => some (s.length - rest.length)
  | none => none

/-- Scanning loop of `re.findall`: non-overlapping leftmost matches,
resuming right after each match.  Returns the number of matches. -/
def scanCount (re : Re) : Nat → Option Char → List Char → Nat
  | 0, _, _ => 0
  | _, _, [] => 0
  | fuel + 1, prev, c :: rest =>
    match tryMatch re prev (c :: rest) with
    | some (n + 1) =>
      1 + scanCount re fuel ((c :: rest).take (n + 1)).getLast?
        ((c :: rest).drop (n + 1))
    | _ => scanCount re fuel (some c) rest

/-- Scanning loop of `re.sub`: replace each non-overlapping leftmost match
by `repl`; the scan works over the original text, so `\b` context never
sees replacement text. -/
def scanSub (re : Re) (repl : List Char) : Nat → Option Char → List Char → List Char
  | 0, _, s => s
  | _, _, [] => []
  | fuel + 1, prev, c :: rest =>
    match tryMatch re prev (c :: rest) with
    | some (n + 1) =>
      repl ++ scanSub re repl fuel ((c :: rest).take (n + 1)).getLast?
        ((c :: rest).drop (n + 1))
    | _ => c :: scanSub re repl fuel (some c) rest

/-- `len(re.findall(pattern, s))`. -/
def countMatches (re : Re) (s : String) : Nat :=
  scanCount re (s.data.length + 1) none s.data

/-- `re.sub(pattern, repl, s)`. -/
def subAll (re : Re) (repl : String) (s : String) : String :=
  ⟨scanSub re repl.data (s.data.length + 1) none s.data⟩

/-! ### The seven patterns -/

def chrRe (x : Char) : Re := .cls (fun c => c = x)

def strRe (s : String) : Re := s.data.foldr (fun c r => .seq (chrRe c) r) .eps

def seqAll (rs : List Re) : Re := rs.foldr .seq .eps

def altAll : List Re → Re
  | [] => .eps
  | [r] => r
  | r :: rs => .alt r (altAll rs)

def between (lo hi : Nat) (r : Re) : Re := .rep lo (some hi) r

def atLeast (lo : Nat) (r : Re) : Re := .rep lo none r

def optRe (r : Re) : Re := .rep 0 (some 1) r

def digitCls : Re := .cls Char.isDigit

def inRange (a b c : Char) : Bool := a ≤ c && c ≤ b

/-- `\b(?:[0-9]{1,3}\.){3}[0-9]{1,3}\b` -/
def ipRe : Re :=
  seqAll [.bnd, between 3 3 (.seq (between 1 3 digitCls) (chrRe '.')),
    between 1 3 digitCls, .bnd]

/-- `\b[A-Za-z0-9._%+-]+@[A-Za-z0-9.-]+\.[A-Z|a-z]{2,}\b` (the `|` inside
the final class is a literal, as in the source). -/
def emailRe : Re :=
  seqAll [.bnd,
    atLeast 1 (.cls fun c =>
      c.isAlphanum || c = '.' || c = '_' || c = '%' || c = '+' || c = '-'),
    chrRe '@',
    atLeast 1 (.cls fun c => c.isAlphanum || c = '.' || c = '-'),
    chrRe '.',
    atLeast 2 (.cls fun c => inRange 'A' 'Z' c || c = '|' || inRange 'a' 'z' c),
    .bnd]

def hexLower : Re := .cls fun c => c.isDigit || inRange 'a' 'f' c

/-- `\b[0-9a-f]{8}-[0-9a-f]{4}-[0-9a-f]{4}-[0-9a-f]{4}-[0-9a-f]{12}\b` -/
def deviceRe : Re :=
  seqAll [.bnd, between 8 8 hexLower, chrRe '-', between 4 4 hexLower,
    chrRe '-', between 4 4 hexLower, chrRe '-', between 4 4 hexLower,
    chrRe '-', between 12 12 hexLower, .bnd]

def hexAny : Re := .cls fun c => c.isDigit || inRange 'A' 'F' c || inRange 'a' 'f' c

/-- `\b([0-9A-Fa-f]{2}[:-]){5}([0-9A-Fa-f]{2})\b` -/
def macRe : Re :=
  seqAll [.bnd,
    between 5 5 (seqAll [between 2 2 hexAny, .cls fun c => c = ':' || c = '-']),
    between 2 2 hexAny, .bnd]

/-- `\b\+?[1-9]\d{1,14}\b` -/
def phoneRe : Re :=
  seqAll [.bnd, optRe (chrRe '+'), .cls (inRange '1' '9'), between 1 14 digitCls,
    .bnd]

def dashSpace : Re := .cls fun c => c = '-' || c = ' '

/-- `\b\d{4}[- ]?\d{4}[- ]?\d{4}[- ]?\d{4}\b` -/
def creditRe : Re :=
  seqAll [.bnd, between 4 4 digitCls, optRe dashSpace, between 4 4 digitCls,
    optRe dashSpace, between 4 4 digitCls, optRe dashSpace,
    between 4 4 digitCls, .bnd]

/-- `spotify:(track|album|artist|playlist|user):[a-zA-Z0-9]+` -/
def spotifyRe : Re :=
  seqAll [strRe "spotify:",
    altAll [strRe "track", strRe "album", strRe "artist", strRe "playlist",
      strRe "user"],
    chrRe ':', atLeast 1 (.cls Char.isAlphanum)]

/-! ## Sanitizer (`scripts/sanitize_data.py`) -/

/-- `SpotifyDataSanitizer.redaction_patterns`, in insertion order, each with
its replacement token. -/
def redactionTable : List (Re × String) :=
  [(ipRe, "[IP_ADDRESS]"), (emailRe, "[EMAIL]"), (deviceRe, "[DEVICE_ID]"),
   (macRe, "[MAC_ADDRESS]"), (phoneRe, "[PHONE]"), (creditRe, "[CREDIT_CARD]"),
   (spotifyRe, "[SPOTIFY_URI]")]

/-- `SpotifyDataSanitizer.remove_fields`. -/
def removeFields : List String :=
  ["ip_addr", "ipAddress", "ip_address", "ipAddrDecrypted",
   "email", "emailAddress", "email_address",
   "phone", "phoneNumber", "phone_number",
   "deviceId", "device_id", "deviceIdDecrypted",
   "macAddress", "mac_address",
   "creditCard", "credit_card", "cardNumber",
   "password", "token", "accessToken", "refreshToken",
   "sessionId", "session_id",
   "userId", "user_id", "username",
   "address", "street", "city", "zip", "postalCode",
   "ssn", "socialSecurity", "passport",
   "location", "latitude", "longitude", "gps",
   "timezone", "timeZone",
   "platform", "os", "operatingSystem",
   "browser", "userAgent",
   "connection", "network", "wifi",
   "bluetooth", "bluetoothAddress"]

/-- `sanitize_string` on a string: apply every redaction pattern in table
order, counting replacements; returns the sanitized string and the number
of redactions added to the global counter. -/
def sanitizeString (s : String) : String × Nat :=
  redactionTable.foldl
    (fun acc pr =>
      let c := countMatches pr.1 acc.1
      if c > 0 then (subAll pr.1 pr.2 acc.1, acc.2 + c) else acc)
    (s, 0)

/-- The key-removal test of `sanitize_object`:
`any(remove_field.lower() in key.lower() for remove_field in remove_fields)`. -/
def shouldRemoveKey (key : String) : Bool :=
  removeFields.any (fun f => containsCI key f)

mutual

/-- `sanitize_object`, returning the rebuilt value together with the number
of redactions it contributed to the sanitizer's global counter. -/
def sanitizeObject : JVal → JVal × Nat
  | .obj kvs => let r := sanitizeKVs kvs; (.obj r.1, r.2)
  | .arr xs => let r := sanitizeArr xs; (.arr r.1, r.2)
  | .str s => let r := sanitizeString s; (.str r.1, r.2)
  | v => (v, 0)

def sanitizeArr : List JVal → List JVal × Nat
  | [] => ([], 0)
  | x :: xs =>
    let h := sanitizeObject x
    let t := sanitizeArr xs
    (h.1 :: t.1, h.2 + t.2)

def sanitizeKVs : List (String × JVal) → List (String × JVal) × Nat
  | [] => ([], 0)
  | (k, v) :: rest =>
    if shouldRemoveKey k then sanitizeKVs rest
    else
      let h := sanitizeObject v
      let t := sanitizeKVs rest
      ((k, h.1) :: t.1, h.2 + t.2)

end

/-- The sanitizer's mutable `sanitization_stats` counters. -/
structure SanStats where
  files_processed : Nat
  files_sanitized : Nat
  total_redactions : Nat

def SanStats.init : SanStats := ⟨0, 0, 0⟩

/-- One input file for `sanitize_file`: whether `should_skip_file` holds
for its path, and the result of `json.load` (`none` = exception). -/
structure SanFile where
  skip : Bool
  parsed : Option JVal

/-- `sanitize_file`: on a parse error nothing is counted; otherwise
`files_processed` is incremented, skip-listed files yield no output, and
`files_sanitized` is incremented whenever the *cumulative*
`total_redactions` counter is positive after processing the file. -/
def sanitizeFileStep (st : SanStats) (f : SanFile) : SanStats × Option JVal :=
  match f.parsed with
  | none => (st, none)
  | some d =>
    let st := { st with files_processed := st.files_processed + 1 }
    if f.skip then (st, none)
    else
      let r := sanitizeObject d
      let st := { st with total_redactions := st.total_redactions + r.2 }
      if st.total_redactions > 0 then
        ({ st with files_sanitized := st.files_sanitized + 1 }, some r.1)
      else (st, some r.1)

/-- `sanitize_all_files` over a list of discovered files (stats only). -/
def runSanitizer (st : SanStats) (files : List SanFile) : SanStats :=
  files.foldl (fun s f => (sanitizeFileStep s f).1) st

/-- Redactions a single file contributes on its own. -/
def ownRedactions (f : SanFile) : Nat :=
  match f.parsed with
  | some d => if f.skip then 0 else (sanitizeObject d).2
  | none => 0

/-- The number of non-skipped, successfully parsed files with at least one
redaction of their own — what the spec sentence says `files_sanitized`
should be. -/
def specSanitizedCount (files : List SanFile) : Nat :=
  (files.filter (fun f => !f.skip && f.parsed.isSome && ownRedactions f > 0)).length

/-- What the code actually counts: non-skipped parsed files processed at a
moment when the cumulative redaction counter (started at `acc`) is
positive. -/
def cumulativeSanitizedCount (acc : Nat) : List SanFile → Nat
  | [] => 0
  | f :: rest =>
    match f.parsed with
    | none => cumulativeSanitizedCount acc rest
    | some d =>
      if f.skip then cumulativeSanitizedCount acc rest
      else
        let acc' := acc + (sanitizeObject d).2
        (if acc' > 0 then 1 else 0) + cumulativeSanitizedCount acc' rest

/-- `create_safe_streaming_history`'s per-entry construction: the five
fields, each copied verbatim with the source defaults. -/
def mkSafeEntry (kvs : List (String × JVal)) : JVal :=
  .obj [("trackName", getKeyD kvs "trackName" (.str "")),
        ("artistName", getKeyD kvs "artistName" (.str "")),
        ("albumName", getKeyD kvs "albumName" (.str "")),
        ("endTime", getKeyD kvs "endTime" (.str "")),
        ("msPlayed", getKeyD kvs "msPlayed" (.num 0))]

/-- The validation applied before appending a safe entry. -/
def safeEntryValid (kvs : List (String × JVal)) : Bool :=
  truthy (getKeyD kvs "trackName" (.str "")) &&
  truthy (getKeyD kvs "artistName" (.str "")) &&
  truthy (getKeyD kvs "endTime" (.str "")) &&
  truthy (getKeyD kvs "msPlayed" (.num 0))

/-- Entries one streaming-history file contributes to
`safe_streaming_history.json`.  A non-object entry raises
`AttributeError` at `entry.get`, which the per-file handler catches, so the
entries appended before it survive and the rest of the file is dropped;
non-array files contribute nothing. -/
def safeFileEntries : JVal → List JVal
  | .arr xs => safeEntriesLoop xs
  | _ => []
where
  safeEntriesLoop : List JVal → List JVal
    | [] => []
    | .obj kvs :: rest =>
      if safeEntryValid kvs then mkSafeEntry kvs :: safeEntriesLoop rest
      else safeEntriesLoop rest
    | _ :: _ => []

/-! ## Merger (`scripts/merge_data.py`) -/

/-- The merger's accumulator `merged_data` (the `merged_at` timestamp is
irrelevant to every claim and omitted). -/
structure MergedData where
  streaming_history : List JVal
  playlists : List JVal
  user_data : List (String × JVal)
  files_processed : Nat
  total_streams : Nat

def MergedData.init : MergedData := ⟨[], [], [], 0, 0⟩

/-- One iteration of `merge_streaming_history`'s loop.  `none` models an
exception from `open`/`json.load`, caught by the per-file handler; content
that is not an array is skipped. -/
def mergeStreamingStep (st : MergedData) (f : Option JVal) : MergedData :=
  match f with
  | some (.arr xs) =>
    { st with streaming_history := st.streaming_history ++ xs,
              files_processed := st.files_processed + 1 }
  | _ => st

/-- `list.extend(v)` on a parsed JSON value: arrays extend with their
elements, strings with their one-character strings, objects with their
keys; other values raise `TypeError` (`none`). -/
def pyIterElems : JVal → Option (List JVal)
  | .arr xs => some xs
  | .str s => some (s.data.map (fun c => .str ⟨[c]⟩))
  | .obj kvs => some (kvs.map (fun kv => .str kv.1))
  | _ => none

/-- One iteration of `merge_playlists`' loop: objects with a `"playlists"`
key are extended into the accumulator; a `TypeError` from `extend` is
caught by the per-file handler before any mutation. -/
def mergePlaylistsStep (st : MergedData) (f : Option JVal) : MergedData :=
  match f with
  | some (.obj kvs) =>
    match getKey? kvs "playlists" with
    | some v =>
      match pyIterElems v with
      | some els =>
        { st with playlists := st.playlists ++ els,
                  files_processed := st.files_processed + 1 }
      | none => st
    | none => st
  | _ => st

def mergeStreamingFiles (st : MergedData) (files : List (Option JVal)) : MergedData :=
  files.foldl mergeStreamingStep st

def mergePlaylistFiles (st : MergedData) (files : List (Option JVal)) : MergedData :=
  files.foldl mergePlaylistsStep st

/-- The required-fields check of `clean_streaming_data`
(`entry.get(field)` defaults to `None`, then truthiness). -/
def cleanFieldsOk (kvs : List (String × JVal)) : Bool :=
  truthy (getKeyD kvs "trackName" .null) &&
  truthy (getKeyD kvs "artistName" .null) &&
  truthy (getKeyD kvs "endTime" .null) &&
  truthy (getKeyD kvs "msPlayed" .null)

/-- The cleaning loop of `clean_streaming_data`.  A non-object entry makes
`entry.get` raise `AttributeError`, which nothing in the merger catches;
`int(entry["msPlayed"])` failures are caught and drop the entry, and the
coerced integer is written back into the record. -/
def cleanEntries : List JVal → Except String (List JVal)
  | [] => .ok []
  | .obj kvs :: rest =>
    if cleanFieldsOk kvs then
      match pyToInt (getKeyD kvs "msPlayed" .null) with
      | some n =>
        if n > 0 then
          match cleanEntries rest with
          | .ok tail => .ok (.obj (setKey kvs "msPlayed" (.num n)) :: tail)
          | .error e => .error e
        else cleanEntries rest
      | none => cleanEntries rest
    else cleanEntries rest
  | _ :: _ => .error "AttributeError"

/-- `clean_streaming_data`: replace the accumulated history by the cleaned
list and set `metadata["total_streams"]` to its length. -/
def cleanStreamingData (st : MergedData) : Except String MergedData :=
  match cleanEntries st.streaming_history with
  | .ok cleaned =>
    .ok { st with streaming_history := cleaned, total_streams := cleaned.length }
  | .error e => .error e

/-! ## Privacy scanner (`scripts/privacy_filter.py`) -/

/-- `SpotifyPrivacyFilter.sensitive_patterns`, in insertion order. -/
def sensitiveTable : List (String × Re) :=
  [("ip_addresses", ipRe), ("email_addresses", emailRe),
   ("device_ids", deviceRe), ("spotify_uris", spotifyRe),
   ("mac_addresses", macRe), ("phone_numbers", phoneRe),
   ("credit_cards", creditRe)]

/-- `SpotifyPrivacyFilter.sensitive_fields`, tier by tier. -/
def sensitiveFields : List (String × List String) :=
  [("high_risk",
    ["ip_addr", "ipAddress", "ip_address", "ipAddrDecrypted",
     "email", "emailAddress", "email_address",
     "phone", "phoneNumber", "phone_number",
     "deviceId", "device_id", "deviceIdDecrypted",
     "macAddress", "mac_address",
     "creditCard", "credit_card", "cardNumber",
     "password", "token", "accessToken", "refreshToken",
     "sessionId", "session_id",
     "userId", "user_id", "username",
     "address", "street", "city", "zip", "postalCode",
     "ssn", "socialSecurity", "passport"]),
   ("medium_risk",
    ["location", "latitude", "longitude", "gps",
     "timezone", "timeZone",
     "language", "locale",
     "platform", "os", "operatingSystem",
     "browser", "userAgent",
     "connection", "network", "wifi",
     "bluetooth", "bluetoothAddress"]),
   ("low_risk",
    ["timestamp", "date", "time",
     "duration", "msPlayed",
     "trackName", "artistName", "albumName",
     "playlistName", "playlist_name"])]

/-- One recorded issue.  The formatted message text is abstracted to its
identifying parts; downstream only presence in the list matters. -/
inductive PIssue where
  | pathPattern (pat : String)
  | fieldTier (field tier sensitive : String)
  | fieldPat (field pat : String)
  | valuePat (pat : String)
  | largeNum (n : Int)
  | readError
deriving DecidableEq, Repr

/-- `_check_field_name`: every tier entry as a case-insensitive substring,
then every regex via `re.search`. -/
def checkFieldName (field : String) : List PIssue :=
  (sensitiveFields.flatMap fun tier =>
    tier.2.filterMap fun sf =>
      if containsCI field sf then some (.fieldTier field tier.1 sf) else none)
  ++ sensitiveTable.filterMap fun pr =>
      if countMatches pr.2 field > 0 then some (.fieldPat field pr.1) else none

/-- `_check_field_value`: regex findall on strings, the large-number
heuristic on numbers (Python booleans are the ints 0/1, below the
threshold). -/
def checkFieldValue : JVal → List PIssue
  | .str s => sensitiveTable.filterMap fun pr =>
      if countMatches pr.2 s > 0 then some (.valuePat pr.1) else none
  | .num n => if n > 1000000000000 then [.largeNum n] else []
  | _ => []

def isContainer : JVal → Bool
  | .obj _ => true
  | .arr _ => true
  | _ => false

mutual

/-- `_analyze_json_structure`. -/
def analyzeStructure : JVal → List PIssue
  | .obj kvs => analyzeKVs kvs
  | .arr xs => analyzeItems xs
  | _ => []

def analyzeKVs : List (String × JVal) → List PIssue
  | [] => []
  | (k, v) :: rest =>
    checkFieldName k ++ checkFieldValue v ++
    (if isContainer v then analyzeStructure v else []) ++ analyzeKVs rest

def analyzeItems : List JVal → List PIssue
  | [] => []
  | x :: rest =>
    (if isContainer x then analyzeStructure x else []) ++ analyzeItems rest

end

/-- `analyze_file`'s issue list for a successfully parsed file: path-level
pattern findings followed by the recursive structure walk. -/
def issuesFor (path : String) (d : JVal) : List PIssue :=
  (sensitiveTable.filterMap fun pr =>
    if countMatches pr.2 path > 0 then some (.pathPattern pr.1) else none)
  ++ analyzeStructure d

/-- One input file for the scanner. -/
structure PrivFile where
  path : String
  parsed : Option JVal

/-- The scanner's mutable `analysis_results` (recommendations and the
timestamp are free text and omitted). -/
structure PrivState where
  files_analyzed : Nat
  safe_files : List String
  risky_files : List (String × List PIssue)

def PrivState.init : PrivState := ⟨0, [], []⟩

/-- `analyze_file`: a parse error appends to `risky_files` without
incrementing `files_analyzed`; otherwise the file goes to exactly one of
the two lists and `files_analyzed` is incremented. -/
def analyzeFileStep (st : PrivState) (f : PrivFile) : PrivState :=
  match f.parsed with
  | none =>
    { st with risky_files := st.risky_files ++ [(f.path, [.readError])] }
  | some d =>
    let issues := issuesFor f.path d
    if issues.isEmpty then
      { st with safe_files := st.safe_files ++ [f.path],
                files_analyzed := st.files_analyzed + 1 }
    else
      { st with risky_files := st.risky_files ++ [(f.path, issues)],
                files_analyzed := st.files_analyzed + 1 }

/-- `analyze_all_files` over the discovered files. -/
def runScanner (st : PrivState) (files : List PrivFile) : PrivState :=
  files.foldl analyzeFileStep st

/-! ## Diagnostic reporter (`scripts/diagnostic_report.py`) -/

/-- Python `x + v` for an integer accumulator and a JSON value
(`artist_time[artist] += entry.get("msPlayed", 0)`): integers and booleans
add, anything else raises `TypeError`. -/
def pyAddInt (x : Int) : JVal → Except String Int
  | .num n => .ok (x + n)
  | .bool b => .ok (x + if b then 1 else 0)
  | _ => .error "TypeError"

/-- Python dictionary keys must be hashable: lists and dicts raise
`TypeError` when used as keys. -/
def hashableKey : JVal → Bool
  | .arr _ => false
  | .obj _ => false
  | _ => true

/-- Update the artist accumulator (first-seen order, keyed by Python
equality): `artist_streams[artist] += 1; artist_time[artist] += ms`. -/
def bumpArtist (acc : List (JVal × Nat × Int)) (a : JVal) (ms : JVal) :
    Except String (List (JVal × Nat × Int)) :=
  match acc with
  | [] =>
    match pyAddInt 0 ms with
    | .ok t => .ok [(a, 1, t)]
    | .error e => .error e
  | (a', c, t) :: rest =>
    if jvalBeq a' a then
      match pyAddInt t ms with
      | .ok t' => .ok ((a', c + 1, t') :: rest)
      | .error e => .error e
    else
      match bumpArtist rest a ms with
      | .ok r => .ok ((a', c, t) :: r)
      | .error e => .error e

/-- The accumulation loop of `analyze_artists`.  A non-object entry makes
`entry.get` raise `AttributeError`; an unhashable `artistName` raises
`TypeError`; `artist_time[artist] += entry.get("msPlayed", 0)` raises
`TypeError` on non-numeric values.  None of these is caught anywhere. -/
def collectArtists : List JVal → List (JVal × Nat × Int) →
    Except String (List (JVal × Nat × Int))
  | [], acc => .ok acc
  | .obj kvs :: rest, acc =>
    let a := getKeyD kvs "artistName" (.str "")
    if truthy a then
      if hashableKey a then
        match bumpArtist acc a (getKeyD kvs "msPlayed" (.num 0)) with
        | .ok acc' => collectArtists rest acc'
        | .error e => .error e
      else .error "TypeError"
    else collectArtists rest acc
  | _ :: _, _ => .error "AttributeError"

/-- The `artist_analysis` result (hour formatting and the guarded
concentration-ratio division are float formatting of these fields and
cannot raise; they are not modelled). -/
structure ArtistReport where
  total_artists : Nat
  top_by_streams : List (JVal × Nat)
  top_by_time : List (JVal × Int)
  top_10_percent : Nat

/-- `analyze_artists` on the loaded `streaming_history` array: `none` on
the empty early return; `Except.error` models an uncaught exception.  The
subscript `int(len(artist_streams) * 0.1)` equals `len / 10` for every
realizable size and sits inside the comprehension's condition, so it is
only evaluated when the accumulator is non-empty. -/
def analyzeArtists (sd : List JVal) : Except String (Option ArtistReport) :=
  if sd.isEmpty then .ok none
  else
    match collectArtists sd [] with
    | .error e => .error e
    | .ok acc =>
      let n := acc.length
      let countsDesc :=
        (acc.map (fun x => x.2.1)).mergeSort (fun a b => decide (b ≤ a))
      let top10 :=
        match countsDesc[n / 10]? with
        | some threshold => (acc.filter (fun x => threshold ≤ x.2.1)).length
        | none => 0
      let byStreams :=
        (acc.mergeSort (fun a b => decide (b.2.1 ≤ a.2.1))).take 20
      let byTime :=
        (acc.mergeSort (fun a b => decide (b.2.2 ≤ a.2.2))).take 20
      .ok (some
        { total_artists := n
        , top_by_streams := byStreams.map (fun x => (x.1, x.2.1))
        , top_by_time := byTime.map (fun x => (x.1, x.2.2))
        , top_10_percent := top10 })

/-! ## Spec-side checkers and helper definitions for the claims -/

/-- Is the value a non-empty JSON string? (What C4 claims of the three
identity fields.) -/
def isNonemptyStr : JVal → Bool
  | .str s => !s.isEmpty
  | _ => false

/-- The property C4 literally claims of every cleaned streaming record. -/
def c4ClaimedRecordOk : JVal → Bool
  | .obj kvs =>
    isNonemptyStr (getKeyD kvs "trackName" .null) &&
    isNonemptyStr (getKeyD kvs "artistName" .null) &&
    isNonemptyStr (getKeyD kvs "endTime" .null) &&
    (match getKeyD kvs "msPlayed" .null with
     | .num n => decide (0 < n)
     | _ => false)
  | _ => false

/-- The amended property: the three identity fields are truthy (not
necessarily strings) and `msPlayed` is a positive integer. -/
def c4AmendedRecordOk : JVal → Bool
  | .obj kvs =>
    truthy (getKeyD kvs "trackName" .null) &&
    truthy (getKeyD kvs "artistName" .null) &&
    truthy (getKeyD kvs "endTime" .null) &&
    (match getKeyD kvs "msPlayed" .null with
     | .num n => decide (0 < n)
     | _ => false)
  | _ => false

/-- `f` is an input file whose parsed content is an object with a
`"playlists"` key. -/
def hasPlaylistsKey : Option JVal → Bool
  | some (.obj kvs) => (getKey? kvs "playlists").isSome
  | _ => false

mutual

/-- No mapping key anywhere in the value matches the removal list. -/
def keysClean : JVal → Bool
  | .obj kvs => keysCleanKVs kvs
  | .arr xs => keysCleanArr xs
  | _ => true

def keysCleanArr : List JVal → Bool
  | [] => true
  | x :: xs => keysClean x && keysCleanArr xs

def keysCleanKVs : List (String × JVal) → Bool
  | [] => true
  | (k, v) :: rest => !shouldRemoveKey k && keysClean v && keysCleanKVs rest

end

mutual

/-- No string leaf anywhere in the value contains a match of any of the
seven redaction regexes. -/
def leavesClean : JVal → Bool
  | .str s => redactionTable.all (fun pr => countMatches pr.1 s == 0)
  | .obj kvs => leavesCleanKVs kvs
  | .arr xs => leavesCleanArr xs
  | _ => true

def leavesCleanArr : List JVal → Bool
  | [] => true
  | x :: xs => leavesClean x && leavesCleanArr xs

def leavesCleanKVs : List (String × JVal) → Bool
  | [] => true
  | (_, v) :: rest => leavesClean v && leavesCleanKVs rest

end

/-- The elements of a parsed JSON array (a non-array has none). -/
def jElems : JVal → List JVal
  | .arr xs => xs
  | _ => []

/-- What `create_safe_streaming_history` emits for one source entry:
`none` for entries the validation rejects (and for the non-object entries
that abort the file). -/
def safeOfEntry : JVal → Option JVal
  | .obj kvs => if safeEntryValid kvs then some (mkSafeEntry kvs) else none
  | _ => none

def fiveSafeKeys : List String :=
  ["trackName", "artistName", "albumName", "endTime", "msPlayed"]

def keysOf : JVal → List String
  | .obj kvs => kvs.map Prod.fst
  | _ => []

/-- Truthiness of the four validated fields, read off an emitted record. -/
def safeRecordTruthy : JVal → Bool
  | .obj kvs =>
    truthy (getKeyD kvs "trackName" .null) &&
    truthy (getKeyD kvs "artistName" .null) &&
    truthy (getKeyD kvs "endTime" .null) &&
    truthy (getKeyD kvs "msPlayed" .null)
  | _ => false

/-- The `safe_files` entry one file contributes. -/
def safeEntryOf : PrivFile → Option String
  | ⟨path, some d⟩ => if (issuesFor path d).isEmpty then some path else none
  | ⟨_, none⟩ => none

/-- The `risky_files` entry one file contributes. -/
def riskyEntryOf : PrivFile → Option (String × List PIssue)
  | ⟨path, some d⟩ =>
    if (issuesFor path d).isEmpty then none else some (path, issuesFor path d)
  | ⟨path, none⟩ => some (path, [.readError])

/-! ### Concrete inputs used by counterexamples and witnesses -/

def c1Doc : JVal := .str "1234567spotify:track:x"

def c3File1 : SanFile := ⟨false, some (.str "spotify:track:x")⟩

def c3File2 : SanFile := ⟨false, some (.str "hello")⟩

def c4Rec : JVal :=
  .obj [("trackName", .num 1), ("artistName", .str "a"),
        ("endTime", .str "t"), ("msPlayed", .num 5)]

def c5ErrFile : PrivFile := ⟨"broken.json", none⟩

def c5DemoFiles : List PrivFile :=
  [⟨"a.json", some (.obj [("email", .str "x")])⟩,
   ⟨"b.json", some (.str "hi")⟩,
   ⟨"c.json", none⟩]

def c9Kvs : List (String × JVal) :=
  [("trackName", .str "T"), ("artistName", .str "A"),
   ("endTime", .str "2024-01-01 10:00"), ("msPlayed", .str "12x")]

def c9Data : JVal := .arr [.obj c9Kvs]

theorem getKey?_setKey_same (kvs : List (String × JVal)) (k : String) (v : JVal) :
    getKey? (setKey kvs k v) k = some v := by
  induction kvs with
  | nil => simp [setKey, getKey?]
  | cons kv rest ih =>
    obtain ⟨k', v'⟩ := kv
    by_cases h : k' = k
    · simp [setKey, getKey?, h]
    · simp [setKey, getKey?, h, ih]

theorem getKey?_setKey_other (kvs : List (String × JVal)) (k k' : String)
    (v : JVal) (h : k' ≠ k) :
    getKey? (setKey kvs k v) k' = getKey? kvs k' := by
  induction kvs with
  | nil => simp [setKey, getKey?, Ne.symm h]
  | cons kv rest ih =>
    obtain ⟨k'', v''⟩ := kv
    by_cases hk : k'' = k
    · subst hk
      simp [setKey, getKey?, Ne.symm h]
    · simp [setKey, getKey?, hk, ih]

/-! ## C6: `total_streams` equals the cleaned history length -/

/-- C6: after `clean_streaming_data` (and hence in the saved merged
dataset), `metadata.total_streams` equals the length of the
`streaming_history` array. -/
theorem c6_total_streams_matches_history (st st' : MergedData)
    (h : cleanStreamingData st = .ok st') :
    st'.total_streams = st'.streaming_history.length := by
  unfold cleanStreamingData at h
  cases hc : cleanEntries st.streaming_history with
  | ok cleaned =>
    rw [hc] at h
    injection h with h
    subst h
    rfl
  | error e => rw [hc] at h; cases h

theorem c6_total_streams_matches_history_witness :
    (MergedData.mk [.obj [("trackName", .str "A"), ("artistName", .str "B"),
        ("endTime", .str "2024-01-01T12:00:00Z"), ("msPlayed", .num 3)]]
      [] [] 1 1).total_streams =
    (MergedData.mk [.obj [("trackName", .str "A"), ("artistName", .str "B"),
        ("endTime", .str "2024-01-01T12:00:00Z"), ("msPlayed", .num 3)]]
      [] [] 1 1).streaming_history.length :=
  c6_total_streams_matches_history
    (MergedData.mk [.obj [("trackName", .str "A"), ("artistName", .str "B"),
        ("endTime", .str "2024-01-01T12:00:00Z"), ("msPlayed", .num 3)]]
      [] [] 1 0) _ rfl

/-! ## C8: a failing file leaves the merge state untouched -/

theorem mergeStreamingStep_none (st : MergedData) :
    mergeStreamingStep st none = st := rfl

theorem mergePlaylistsStep_none (st : MergedData) :
    mergePlaylistsStep st none = st := rfl

/-- C8: if reading or parsing one input file raises, the merger's
accumulated state is exactly what it was without that file, and the
remaining files are processed identically — for both the streaming-history
and the playlist loops. -/
theorem c8_error_file_no_effect (st : MergedData) (l1 l2 : List (Option JVal)) :
    mergeStreamingFiles st (l1 ++ none :: l2) = mergeStreamingFiles st (l1 ++ l2) ∧
    mergePlaylistFiles st (l1 ++ none :: l2) = mergePlaylistFiles st (l1 ++ l2) := by
  constructor <;>
    simp [mergeStreamingFiles, mergePlaylistFiles, List.foldl_append,
      mergeStreamingStep_none, mergePlaylistsStep_none]

/-! ## C7: what playlist ingestion actually appends -/

/-- C7 counterexample: a file whose `"playlists"` value is the *string*
`"ab"` contributes its characters — `list.extend` iterates any iterable —
so non-array values are not all ignored as the claim states. -/
theorem c7_counterexample :
    MergedData.init.playlists = [] ∧
    (mergePlaylistsStep MergedData.init
      (some (.obj [("playlists", .str "ab")]))).playlists =
      [.str "a", .str "b"] :=
  ⟨rfl, rfl⟩

/-- C7 (amended): playlist ingestion appends only from files parsed to an
object with a `"playlists"` key; an array value appends its elements, but
a string appends its characters and an object its keys (`extend` accepts
any iterable); only non-iterable values (and files without such a key)
contribute nothing, via the caught `TypeError`. -/
theorem c7_amended :
    (∀ (st : MergedData) (f : Option JVal), hasPlaylistsKey f = false →
      mergePlaylistsStep st f = st) ∧
    (∀ (st : MergedData) (kvs : List (String × JVal)) (v : JVal),
      getKey? kvs "playlists" = some v → pyIterElems v = none →
      mergePlaylistsStep st (some (.obj kvs)) = st) ∧
    (∀ (st : MergedData) (kvs : List (String × JVal)) (v : JVal)
      (els : List JVal),
      getKey? kvs "playlists" = some v → pyIterElems v = some els →
      mergePlaylistsStep st (some (.obj kvs)) =
        { st with playlists := st.playlists ++ els,
                  files_processed := st.files_processed + 1 }) := by
  refine ⟨?_, ?_, ?_⟩
  · intro st f h
    match f with
    | none => rfl
    | some .null => rfl
    | some (.bool _) => rfl
    | some (.num _) => rfl
    | some (.str _) => rfl
    | some (.arr _) => rfl
    | some (.obj kvs) =>
      simp only [hasPlaylistsKey] at h
      cases hg : getKey? kvs "playlists" with
      | none => simp [mergePlaylistsStep, hg]
      | some v => rw [hg] at h; simp at h
  · intro st kvs v hk hv
    simp [mergePlaylistsStep, hk, hv]
  · intro st kvs v els hk hv
    simp [mergePlaylistsStep, hk, hv]

theorem c7_amended_witness :
    mergePlaylistsStep MergedData.init (some (.num 3)) = MergedData.init ∧
    mergePlaylistsStep MergedData.init
      (some (.obj [("playlists", .null)])) = MergedData.init ∧
    (mergePlaylistsStep MergedData.init
      (some (.obj [("playlists", .arr [.num 1])]))).playlists = [.num 1] :=
  ⟨c7_amended.1 MergedData.init (some (.num 3)) rfl,
   c7_amended.2.1 MergedData.init [("playlists", .null)] .null rfl rfl,
   by rw [c7_amended.2.2 MergedData.init [("playlists", .arr [.num 1])]
     (.arr [.num 1]) [.num 1] rfl rfl]; rfl⟩

/-! ## C2: the diagnostic reporter can crash -/

/-- C2: contrary to the no-crash design claim, `analyze_artists` raises an
uncaught `TypeError` on a streaming record whose `msPlayed` is a (truthy)
string: `artist_time[artist] += entry.get("msPlayed", 0)` adds `int` and
`str`. -/
theorem c2_artist_analysis_crashes :
    analyzeArtists [.obj [("artistName", .str "a"), ("msPlayed", .str "10")]] =
      .error "TypeError" := rfl

/-! ## C3 / C4 / C5 counterexamples -/

/-- C3 counterexample: the first file has one redaction, the second none,
yet `files_sanitized` ends at 2 — the counter is keyed off the cumulative
`total_redactions`, so the second file is counted although it had zero
redactions of its own. -/
theorem c3_counterexample :
    (runSanitizer SanStats.init [c3File1, c3File2]).files_sanitized = 2 ∧
    specSanitizedCount [c3File1, c3File2] = 1 := by
  constructor <;> rfl

/-- C4 counterexample: a record whose `trackName` is the number `1` (truthy
but not a string) survives cleaning unchanged, so not every cleaned record
has non-empty *strings* in the three identity fields. -/
theorem c4_counterexample :
    cleanEntries [c4Rec] = .ok [c4Rec] ∧ c4ClaimedRecordOk c4Rec = false :=
  ⟨rfl, rfl⟩

/-- C5 counterexample: a file whose read/parse fails is appended to
`risky_files` but `files_analyzed` is not incremented, so
`len(safe_files) + len(risky_files)` exceeds `files_analyzed`. -/
theorem c5_counterexample :
    (runScanner PrivState.init [c5ErrFile]).files_analyzed = 0 ∧
    (runScanner PrivState.init [c5ErrFile]).safe_files.length +
      (runScanner PrivState.init [c5ErrFile]).risky_files.length = 1 :=
  ⟨rfl, rfl⟩

/-! ## C4 (amended): cleaned records are truthy with integer msPlayed -/

/-- C4 (amended): every record surviving `clean_streaming_data` has truthy
`trackName`, `artistName` and `endTime` (the code checks truthiness, not
that they are strings) and an integer `msPlayed > 0` (written back by the
coercion). -/
theorem c4_amended (input : List JVal) :
    ∀ out, cleanEntries input = .ok out → out.all c4AmendedRecordOk = true := by
  induction input with
  | nil =>
    intro out h
    injection h with h
    subst h
    rfl
  | cons e rest ih =>
    intro out h
    cases e with
    | null => simp [cleanEntries] at h
    | bool b => simp [cleanEntries] at h
    | num n => simp [cleanEntries] at h
    | str s => simp [cleanEntries] at h
    | arr xs => simp [cleanEntries] at h
    | obj kvs =>
      simp only [cleanEntries] at h
      split at h
      · rename_i hf
        split at h
        · rename_i n hp
          split at h
          · rename_i hn
            split at h
            · rename_i tail hc
              injection h with h
              subst h
              rw [List.all_cons, Bool.and_eq_true]
              refine ⟨?_, ih tail hc⟩
              have h1 := getKey?_setKey_other kvs "msPlayed" "trackName"
                (.num n) (by decide)
              have h2 := getKey?_setKey_other kvs "msPlayed" "artistName"
                (.num n) (by decide)
              have h3 := getKey?_setKey_other kvs "msPlayed" "endTime"
                (.num n) (by decide)
              simp only [cleanFieldsOk, getKeyD, Bool.and_eq_true] at hf
              obtain ⟨⟨⟨ht, ha⟩, he⟩, _⟩ := hf
              simp [c4AmendedRecordOk, getKeyD, h1, h2, h3,
                getKey?_setKey_same, ht, ha, he, hn]
            · cases h
          · exact ih out h
        · exact ih out h
      · exact ih out h

theorem c4_amended_witness :
    ([c4Rec] : List JVal).all c4AmendedRecordOk = true :=
  c4_amended [c4Rec] [c4Rec] rfl

/-! ## C3 (amended): the cumulative sanitized-files counter -/

theorem sanitizeFileStep_parse_err (st : SanStats) (sk : Bool) :
    (sanitizeFileStep st ⟨sk, none⟩).1 = st := rfl

theorem sanitizeFileStep_skip (st : SanStats) (d : JVal) :
    (sanitizeFileStep st ⟨true, some d⟩).1 =
      { st with files_processed := st.files_processed + 1 } := rfl

theorem sanitizeFileStep_proc (st : SanStats) (d : JVal) :
    (sanitizeFileStep st ⟨false, some d⟩).1 =
      if st.total_redactions + (sanitizeObject d).2 > 0 then
        { files_processed := st.files_processed + 1
        , files_sanitized := st.files_sanitized + 1
        , total_redactions := st.total_redactions + (sanitizeObject d).2 }
      else
        { files_processed := st.files_processed + 1
        , files_sanitized := st.files_sanitized
        , total_redactions := st.total_redactions + (sanitizeObject d).2 } := by
  show (if st.total_redactions + (sanitizeObject d).2 > 0 then
      (({ files_processed := st.files_processed + 1
        , files_sanitized := st.files_sanitized + 1
        , total_redactions := st.total_redactions + (sanitizeObject d).2 } : SanStats),
       some (sanitizeObject d).1)
    else
      (({ files_processed := st.files_processed + 1
        , files_sanitized := st.files_sanitized
        , total_redactions := st.total_redactions + (sanitizeObject d).2 } : SanStats),
       some (sanitizeObject d).1)).1 = _
  by_cases h : st.total_redactions + (sanitizeObject d).2 > 0
  · rw [if_pos h, if_pos h]
  · rw [if_neg h, if_neg h]

theorem runSanitizer_cons (st : SanStats) (f : SanFile) (rest : List SanFile) :
    runSanitizer st (f :: rest) = runSanitizer (sanitizeFileStep st f).1 rest := rfl

/-- C3 (amended): `files_sanitized` equals the number of non-skipped,
successfully parsed files processed while the *cumulative*
`total_redactions` counter is positive — after the first redaction
anywhere, every later such file is counted regardless of its own
redactions. -/
theorem c3_amended (files : List SanFile) (st : SanStats) :
    (runSanitizer st files).files_sanitized =
      st.files_sanitized + cumulativeSanitizedCount st.total_redactions files := by
  induction files generalizing st with
  | nil => rfl
  | cons f rest ih =>
    obtain ⟨sk, parsed⟩ := f
    rw [runSanitizer_cons]
    cases parsed with
    | none =>
      rw [sanitizeFileStep_parse_err, ih]
      rfl
    | some d =>
      cases sk with
      | true =>
        rw [sanitizeFileStep_skip, ih]
        simp [cumulativeSanitizedCount]
      | false =>
        rw [sanitizeFileStep_proc]
        by_cases hpos : st.total_redactions + (sanitizeObject d).2 > 0
        · rw [if_pos hpos, ih]
          simp only [cumulativeSanitizedCount]
          rw [if_pos hpos]
          simp [Nat.add_assoc, Nat.add_comm 1]
        · rw [if_neg hpos, ih]
          simp only [cumulativeSanitizedCount]
          rw [if_neg hpos]
          simp

/-! ## C1: sanitizer round-trip -/

mutual

theorem keysClean_sanitizeObject : ∀ v : JVal, keysClean (sanitizeObject v).1 = true
  | .null => rfl
  | .bool _ => rfl
  | .num _ => rfl
  | .str _ => rfl
  | .arr xs => keysCleanArr_sanitizeArr xs
  | .obj kvs => keysCleanKVs_sanitizeKVs kvs

theorem keysCleanArr_sanitizeArr : ∀ xs : List JVal, keysCleanArr (sanitizeArr xs).1 = true
  | [] => rfl
  | x :: xs => by
    show (keysClean (sanitizeObject x).1 && keysCleanArr (sanitizeArr xs).1) = true
    rw [keysClean_sanitizeObject x, keysCleanArr_sanitizeArr xs]
    rfl

theorem keysCleanKVs_sanitizeKVs :
    ∀ kvs : List (String × JVal), keysCleanKVs (sanitizeKVs kvs).1 = true
  | [] => rfl
  | (k, v) :: rest => by
    by_cases h : shouldRemoveKey k = true
    · show keysCleanKVs (if shouldRemoveKey k then sanitizeKVs rest
        else ((k, (sanitizeObject v).1) :: (sanitizeKVs rest).1,
          (sanitizeObject v).2 + (sanitizeKVs rest).2)).1 = true
      rw [if_pos h]
      exact keysCleanKVs_sanitizeKVs rest
    · show keysCleanKVs (if shouldRemoveKey k then sanitizeKVs rest
        else ((k, (sanitizeObject v).1) :: (sanitizeKVs rest).1,
          (sanitizeObject v).2 + (sanitizeKVs rest).2)).1 = true
      rw [if_neg h]
      show (!shouldRemoveKey k && keysClean (sanitizeObject v).1 &&
        keysCleanKVs (sanitizeKVs rest).1) = true
      rw [keysClean_sanitizeObject v, keysCleanKVs_sanitizeKVs rest]
      simp [h]

end

/-- C1 counterexample: sanitizing the document `"1234567spotify:track:x"`
yields `"1234567[SPOTIFY_URI]"`, whose leading `1234567` now matches the
phone-number regex — the `[` introduced by the later spotify-URI
replacement creates a word boundary that re-exposes the earlier pattern.
So not every string value in the sanitized output is free of redaction
regex matches. -/
theorem c1_counterexample :
    (sanitizeObject c1Doc).1 = .str "1234567[SPOTIFY_URI]" ∧
    leavesClean (sanitizeObject c1Doc).1 = false :=
  ⟨rfl, rfl⟩

/-- C1 (amended): the key half holds unconditionally — no mapping key
anywhere in the sanitized output contains any removal-list entry as a
case-insensitive substring.  For string leaves only this holds: each is the
image of the source leaf under the seven sequential regex substitutions,
which removes every match present when its pattern is applied but can
re-expose an earlier pattern (see the counterexample). -/
theorem c1_amended :
    (∀ v : JVal, keysClean (sanitizeObject v).1 = true) ∧
    (∀ s : String, (sanitizeObject (.str s)).1 = .str (sanitizeString s).1) :=
  ⟨keysClean_sanitizeObject, fun _ => rfl⟩

/-! ## C10: structure preservation of `sanitize_object` -/

theorem sanitizeArr_fst (xs : List JVal) :
    (sanitizeArr xs).1 = xs.map (fun x => (sanitizeObject x).1) := by
  induction xs with
  | nil => rfl
  | cons x xs ih =>
    show (sanitizeObject x).1 :: (sanitizeArr xs).1 = _
    rw [ih, List.map_cons]

theorem sanitizeKVs_fst (kvs : List (String × JVal)) :
    (sanitizeKVs kvs).1 =
      (kvs.filter (fun kv => !shouldRemoveKey kv.1)).map
        (fun kv => (kv.1, (sanitizeObject kv.2).1)) := by
  induction kvs with
  | nil => rfl
  | cons kv rest ih =>
    obtain ⟨k, v⟩ := kv
    by_cases h : shouldRemoveKey k = true
    · show (if shouldRemoveKey k then sanitizeKVs rest
        else ((k, (sanitizeObject v).1) :: (sanitizeKVs rest).1,
          (sanitizeObject v).2 + (sanitizeKVs rest).2)).1 = _
      rw [if_pos h, ih]
      simp [List.filter_cons, h]
    · show (if shouldRemoveKey k then sanitizeKVs rest
        else ((k, (sanitizeObject v).1) :: (sanitizeKVs rest).1,
          (sanitizeObject v).2 + (sanitizeKVs rest).2)).1 = _
      rw [if_neg h]
      show (k, (sanitizeObject v).1) :: (sanitizeKVs rest).1 = _
      rw [ih]
      simp [List.filter_cons, h]

/-- C10: `sanitize_object` preserves structure apart from its two
documented effects: an array maps to the array of its sanitized elements
(same length, same order), non-string scalar leaves are returned
unchanged, and an object keeps exactly its non-removed keys, each bound to
the sanitization of its original value. -/
theorem c10_structure_preservation :
    (∀ xs : List JVal, (sanitizeObject (.arr xs)).1 =
      .arr (xs.map (fun x => (sanitizeObject x).1))) ∧
    (∀ kvs : List (String × JVal), (sanitizeObject (.obj kvs)).1 =
      .obj ((kvs.filter (fun kv => !shouldRemoveKey kv.1)).map
        (fun kv => (kv.1, (sanitizeObject kv.2).1)))) ∧
    (sanitizeObject .null).1 = .null ∧
    (∀ b, (sanitizeObject (.bool b)).1 = .bool b) ∧
    (∀ n, (sanitizeObject (.num n)).1 = .num n) := by
  refine ⟨fun xs => ?_, fun kvs => ?_, rfl, fun b => rfl, fun n => rfl⟩
  · show JVal.arr (sanitizeArr xs).1 = _
    rw [sanitizeArr_fst]
  · show JVal.obj (sanitizeKVs kvs).1 = _
    rw [sanitizeKVs_fst]

/-! ## C9: shape of the emitted safe streaming records -/

theorem safeEntriesLoop_sound (xs : List JVal) (r : JVal)
    (hr : r ∈ safeFileEntries.safeEntriesLoop xs) :
    r ∈ xs.filterMap safeOfEntry ∧ keysOf r = fiveSafeKeys ∧
      safeRecordTruthy r = true := by
  induction xs with
  | nil => cases hr
  | cons e rest ih =>
    cases e with
    | obj kvs =>
      by_cases hv : safeEntryValid kvs = true
      · rw [show safeFileEntries.safeEntriesLoop (JVal.obj kvs :: rest) =
          if safeEntryValid kvs then
            mkSafeEntry kvs :: safeFileEntries.safeEntriesLoop rest
          else safeFileEntries.safeEntriesLoop rest from rfl, if_pos hv] at hr
        rcases List.mem_cons.mp hr with h | h
        · subst h
          refine ⟨?_, rfl, hv⟩
          simp [List.filterMap_cons, safeOfEntry, hv]
        · obtain ⟨hm, hk, ht⟩ := ih h
          refine ⟨?_, hk, ht⟩
          simp only [List.filterMap_cons, safeOfEntry, hv, if_pos]
          exact List.mem_cons_of_mem _ hm
      · rw [show safeFileEntries.safeEntriesLoop (JVal.obj kvs :: rest) =
          if safeEntryValid kvs then
            mkSafeEntry kvs :: safeFileEntries.safeEntriesLoop rest
          else safeFileEntries.safeEntriesLoop rest from rfl, if_neg hv] at hr
        obtain ⟨hm, hk, ht⟩ := ih hr
        refine ⟨?_, hk, ht⟩
        simp only [List.filterMap_cons, safeOfEntry]
        rw [if_neg hv]
        exact hm
    | null => cases hr
    | bool b => cases hr
    | num n => cases hr
    | str s => cases hr
    | arr ys => cases hr

/-- C9: every record emitted into `safe_streaming_history.json` is the
five-field projection of one validated source entry — it appears in the
`filterMap` of `safeOfEntry` over the file's entries (each field copied
verbatim by `entry.get`, with no type coercion, so any truthy `msPlayed` —
a non-empty string, a negative number — passes), it has exactly the five
fixed keys, and its `trackName`, `artistName`, `endTime`, `msPlayed`
values are truthy (`albumName` is unchecked). -/
theorem c9_safe_records (data r : JVal) (hr : r ∈ safeFileEntries data) :
    r ∈ (jElems data).filterMap safeOfEntry ∧ keysOf r = fiveSafeKeys ∧
      safeRecordTruthy r = true := by
  cases data with
  | arr xs => exact safeEntriesLoop_sound xs r hr
  | null => cases hr
  | bool b => cases hr
  | num n => cases hr
  | str s => cases hr
  | obj kvs => cases hr

theorem c9_safe_records_witness :
    mkSafeEntry c9Kvs ∈ (jElems c9Data).filterMap safeOfEntry ∧
      keysOf (mkSafeEntry c9Kvs) = fiveSafeKeys ∧
      safeRecordTruthy (mkSafeEntry c9Kvs) = true :=
  c9_safe_records c9Data (mkSafeEntry c9Kvs) (List.mem_singleton_self _)

/-! ## C5 (amended): the scanner's safe/risky partition -/

theorem analyzeFileStep_char (st : PrivState) (f : PrivFile) :
    analyzeFileStep st f =
      { files_analyzed := st.files_analyzed + (if f.parsed.isSome then 1 else 0)
      , safe_files := st.safe_files ++ (safeEntryOf f).toList
      , risky_files := st.risky_files ++ (riskyEntryOf f).toList } := by
  obtain ⟨path, parsed⟩ := f
  cases parsed with
  | none => simp [analyzeFileStep, safeEntryOf, riskyEntryOf]
  | some d =>
    by_cases hi : (issuesFor path d).isEmpty = true
    · simp [analyzeFileStep, safeEntryOf, riskyEntryOf, hi]
    · simp [analyzeFileStep, safeEntryOf, riskyEntryOf, hi]

theorem runScanner_cons (st : PrivState) (f : PrivFile) (rest : List PrivFile) :
    runScanner st (f :: rest) = runScanner (analyzeFileStep st f) rest := rfl

theorem runScanner_char (files : List PrivFile) (st : PrivState) :
    runScanner st files =
      { files_analyzed := st.files_analyzed +
          (files.filter (fun f => f.parsed.isSome)).length
      , safe_files := st.safe_files ++ files.filterMap safeEntryOf
      , risky_files := st.risky_files ++ files.filterMap riskyEntryOf } := by
  induction files generalizing st with
  | nil => simp [runScanner]
  | cons f rest ih =>
    rw [runScanner_cons, ih, analyzeFileStep_char]
    obtain ⟨path, parsed⟩ := f
    cases parsed with
    | none =>
      simp [safeEntryOf, riskyEntryOf, List.filter_cons, List.filterMap_cons]
    | some d =>
      by_cases hi : (issuesFor path d).isEmpty = true
      · simp [safeEntryOf, riskyEntryOf, List.filter_cons, List.filterMap_cons,
          hi, Nat.add_assoc, Nat.add_comm 1]
      · simp [safeEntryOf, riskyEntryOf, List.filter_cons, List.filterMap_cons,
          hi, Nat.add_assoc, Nat.add_comm 1]

theorem safe_risky_partition (files : List PrivFile) :
    (files.filterMap safeEntryOf).length +
      (files.filterMap riskyEntryOf).length = files.length := by
  induction files with
  | nil => rfl
  | cons f rest ih =>
    obtain ⟨path, parsed⟩ := f
    cases parsed with
    | none =>
      simp [safeEntryOf, riskyEntryOf, List.filterMap_cons]
      omega
    | some d =>
      by_cases hi : (issuesFor path d).isEmpty = true
      · simp [safeEntryOf, riskyEntryOf, List.filterMap_cons, hi]
        omega
      · simp [safeEntryOf, riskyEntryOf, List.filterMap_cons, hi]
        omega

theorem safeEntryOf_path (g : PrivFile) (p : String)
    (h : safeEntryOf g = some p) : g.path = p := by
  obtain ⟨gp, gparsed⟩ := g
  cases gparsed with
  | none => simp [safeEntryOf] at h
  | some gd =>
    by_cases hi : (issuesFor gp gd).isEmpty = true
    · simp [safeEntryOf, hi] at h; exact h
    · simp [safeEntryOf, hi] at h

theorem riskyEntryOf_path (g : PrivFile) (pr : String × List PIssue)
    (h : riskyEntryOf g = some pr) : g.path = pr.1 := by
  obtain ⟨gp, gparsed⟩ := g
  cases gparsed with
  | none => simp [riskyEntryOf] at h; rw [← h]
  | some gd =>
    by_cases hi : (issuesFor gp gd).isEmpty = true
    · simp [riskyEntryOf, hi] at h
    · simp [riskyEntryOf, hi] at h; rw [← h]

/-- C5 (amended): with distinct file paths, `safe_files` and `risky_files`
are disjoint and partition all *processed* files — but a file whose read
or parse fails is appended to `risky_files` without being counted in
`files_analyzed`, so `files_analyzed` counts only the successfully parsed
files and `len(safe) + len(risky)` equals the total processed count, which
exceeds `files_analyzed` by the number of unreadable files.  A parsed file
is safe iff its analysis produced no issue; an unreadable file is always
risky. -/
theorem c5_amended (files : List PrivFile)
    (hnd : (files.map PrivFile.path).Nodup) :
    (runScanner PrivState.init files).safe_files.length +
        (runScanner PrivState.init files).risky_files.length = files.length ∧
    (runScanner PrivState.init files).files_analyzed =
        (files.filter (fun f => f.parsed.isSome)).length ∧
    (∀ f ∈ files, ∀ d, f.parsed = some d →
      (f.path ∈ (runScanner PrivState.init files).safe_files ↔
        (issuesFor f.path d).isEmpty = true)) ∧
    (∀ f ∈ files, f.parsed = none →
      (f.path, [PIssue.readError]) ∈ (runScanner PrivState.init files).risky_files) ∧
    (∀ p, p ∈ (runScanner PrivState.init files).safe_files →
      p ∉ (runScanner PrivState.init files).risky_files.map Prod.fst) := by
  rw [runScanner_char]
  refine ⟨?_, ?_, ?_, ?_, ?_⟩
  · simpa [PrivState.init] using safe_risky_partition files
  · simp [PrivState.init]
  · intro f hf d hd
    simp only [PrivState.init, List.nil_append]
    constructor
    · intro hp
      obtain ⟨g, hg, hge⟩ := List.mem_filterMap.mp hp
      have hpath : g.path = f.path := safeEntryOf_path g f.path hge
      have hgf : g = f :=
        List.inj_on_of_nodup_map hnd hg hf hpath
      subst hgf
      obtain ⟨gp, gparsed⟩ := g
      simp only at hd
      subst hd
      by_cases hi : (issuesFor gp d).isEmpty = true
      · exact hi
      · simp [safeEntryOf, hi] at hge
    · intro hi
      refine List.mem_filterMap.mpr ⟨f, hf, ?_⟩
      obtain ⟨fp, fparsed⟩ := f
      simp only at hd
      subst hd
      simp [safeEntryOf, hi]
  · intro f hf hd
    simp only [PrivState.init, List.nil_append]
    refine List.mem_filterMap.mpr ⟨f, hf, ?_⟩
    obtain ⟨fp, fparsed⟩ := f
    simp only at hd
    subst hd
    simp [riskyEntryOf]
  · intro p hp hq
    simp only [PrivState.init, List.nil_append] at hp hq
    obtain ⟨g, hg, hge⟩ := List.mem_filterMap.mp hp
    obtain ⟨pr, hpr, hfst⟩ := List.mem_map.mp hq
    obtain ⟨h', hh, hhe⟩ := List.mem_filterMap.mp hpr
    have hgpath : g.path = p := safeEntryOf_path g p hge
    have hhpath : h'.path = p := by
      rw [riskyEntryOf_path h' pr hhe, hfst]
    have hgh : g = h' :=
      List.inj_on_of_nodup_map hnd hg hh (by rw [hgpath, hhpath])
    subst hgh
    obtain ⟨gp, gparsed⟩ := g
    cases gparsed with
    | none => simp [safeEntryOf] at hge
    | some gd =>
      by_cases hi : (issuesFor gp gd).isEmpty = true
      · simp [riskyEntryOf, hi] at hhe
      · simp [safeEntryOf, hi] at hge

theorem c5_amended_witness :
    (runScanner PrivState.init c5DemoFiles).safe_files.length +
        (runScanner PrivState.init c5DemoFiles).risky_files.length =
        c5DemoFiles.length ∧
    (runScanner PrivState.init c5DemoFiles).files_analyzed =
        (c5DemoFiles.filter (fun f => f.parsed.isSome)).length :=
  ⟨(c5_amended c5DemoFiles (by decide)).1,
   (c5_amended c5DemoFiles (by decide)).2.1⟩

end SpotifyPipeline
